import Mathlib

/-!
Verification development for the `lemmy_data_sync` repository
(single source file `lemmy_sync.py`).

The Python program is shallowly embedded below: pure loops become
structural or well-founded recursion, the remote server becomes an
explicit function from page numbers to payload lists, file contents
become explicit lists of lines, wall-clock instants become rationals,
and Python exceptions become `Except String`.  Machine-level details
the program never relies on (HTTP transport, JSON concrete syntax) are
abstracted at the same boundary the program itself treats them
opaquely.  Definitions come first, then the theorems about them.
-/

namespace LemmySync

/-! ## Definitions -/

/-! ### Comment collector: `LemmyApi.get_comments` (lines 63-77)

The Python method, for a fixed post, requests `comment/list` page
`page`, extends `acc` by the returned comments (the `for com in
comments: acc.append(com)` loop, i.e. `acc ++ comments`), and recurses
on `page + 1` while `len(acc) < expected_num and len(comments) > 0`
(the length test reads `acc` after the appends).  Comment payloads are
opaque to the engine; we model them as an arbitrary type `α`,
instantiated with `Nat` where concrete pages are needed, and the remote
server as `server : Nat → List α` giving the payload list of each page.
-/

/-- Embedding of `LemmyApi.get_comments` (lines 63-77): extend `acc` by
page `page`, recurse on the next page while the accumulated length is
below `expected_num` and the last page was non-empty, otherwise return
the accumulator. -/
def get_comments (server : Nat → List α) (expected_num : Nat)
    (page : Nat) (acc : List α) : List α :=
  if h : (acc ++ server page).length < expected_num ∧ 0 < (server page).length then
    get_comments server expected_num (page + 1) (acc ++ server page)
  else
    acc ++ server page
termination_by expected_num - acc.length
decreasing_by
  simp only [List.length_append] at h ⊢
  omega

/-- Number of `comment/list` requests issued by one outer call of
`get_comments`: one for the page fetched now, plus those of the
recursive call when the loop continues.  Mirrors the recursion of
`get_comments` exactly. -/
def get_comments_calls (server : Nat → List α) (expected_num : Nat)
    (page : Nat) (acc : List α) : Nat :=
  if h : (acc ++ server page).length < expected_num ∧ 0 < (server page).length then
    1 + get_comments_calls server expected_num (page + 1) (acc ++ server page)
  else
    1
termination_by expected_num - acc.length
decreasing_by
  simp only [List.length_append] at h ⊢
  omega

/-- Scenario server for comment pagination: 50 comments on pages 1 and
2, 37 on page 3, nothing afterwards. -/
def scenario_server_full (p : Nat) : List Nat :=
  if p ≤ 2 then List.replicate 50 0 else if p = 3 then List.replicate 37 0 else []

/-- Scenario server whose page 2 is empty: 50 comments on page 1 only. -/
def scenario_server_gap (p : Nat) : List Nat :=
  if p = 1 then List.replicate 50 0 else []

/-- Python evaluates the default argument `acc: List[dict] = []` of
`get_comments` once, when the `def` is executed; every call that omits
`acc` (as `Post.load_comments` does on line 110) shares and mutates
that single list object.  The recursion passes `acc` explicitly,
appends to it in place, and returns that very object, so after each
top-level call that omitted `acc` the default object holds everything
accumulated so far.  `default_acc_after` gives its contents after a
sequence of such calls (each with the server view and expected count it
ran with, and the default `page = 1`). -/
def default_acc_after (calls : List ((Nat → List Nat) × Nat)) : List Nat :=
  calls.foldl (fun acc c => get_comments c.1 c.2 1 acc) []

/-- One-comment server for the default-accumulator scenario: page 1
holds a single comment, later pages are empty. -/
def one_comment_server (p : Nat) : List Nat :=
  if p = 1 then [0] else []

/-! ### Rate-limited client: `LemmyApi.__init__`, `LemmyApi.get_api`
(lines 18-46)

`__init__` records `self.last_request = time()` at construction.
`get_api`, entered at wall-clock instant `now`, computes `time_diff =
now - last_request`; if it is below `request_interval` it sleeps for
the remainder, then sets `last_request = time()` (the post-sleep
instant, line 34) and only afterwards issues the GET request
(line 39), which returns after some transport duration.  Every
endpoint wrapper (`get_site`, `get_community_info`, `get_posts`,
`get_comments`) funnels through this one method with the one
client-level `request_interval`, so the model below is the timing
behaviour of every call type. -/

/-- Mutable client state relevant to timing: `self.last_request`. -/
structure ApiState where
  last_request : ℚ
deriving DecidableEq

/-- `LemmyApi.__init__` (line 21): `last_request` starts at the
construction instant. -/
def lemmy_api_init (ctor_time : ℚ) : ApiState :=
  ⟨ctor_time⟩

/-- The sleep `get_api` performs when entered at `now` (lines 29-33):
the remainder of `request_interval` measured from `last_request`, or
nothing when the interval has already elapsed. -/
def rate_limit_sleep (request_interval : ℚ) (st : ApiState) (now : ℚ) : ℚ :=
  if now - st.last_request < request_interval then
    request_interval - (now - st.last_request)
  else
    0

/-- Observable instants of one `get_api` call: entry into the method,
issue of the GET request (after the sleep, when `last_request` is also
overwritten), and return of the response. -/
structure CallTiming where
  entry : ℚ
  issue : ℚ
  ret : ℚ
deriving DecidableEq

/-- One `get_api` call entered at `now` whose GET request takes
`dur`: the timing it exhibits and the client state it leaves
(lines 29-39). -/
def get_api_step (request_interval : ℚ) (st : ApiState) (now dur : ℚ) :
    CallTiming × ApiState :=
  (⟨now, now + rate_limit_sleep request_interval st now,
      now + rate_limit_sleep request_interval st now + dur⟩,
   ⟨now + rate_limit_sleep request_interval st now⟩)

/-! ### Seen-ID index: `PostList.load_ids_from_file` (lines 140-151)

The loader reads the storage file line by line, runs `json.loads` on
each line and extracts `data['post']['id']`.  A line is therefore, as
far as this code can observe, either a record carrying a post id, a
line `json.loads` rejects (`JSONDecodeError`), or valid JSON lacking
the field (`KeyError`).  A missing file yields the empty id list. -/

/-- One line of a community storage file, as seen by `json.loads`
followed by `data['post']['id']`. -/
inductive StorageLine
  | parsed (id : Nat)
  | bad_json
  | missing_field
deriving DecidableEq

/-- The line loop of `load_ids_from_file` (lines 146-150): append each
line's post id to `ids`; a malformed line raises out of the loop. -/
def load_ids_lines (ids : List Nat) : List StorageLine → Except String (List Nat)
  | [] => .ok ids
  | .parsed i :: rest => load_ids_lines (ids ++ [i]) rest
  | .bad_json :: _ => .error "json.loads: JSONDecodeError"
  | .missing_field :: _ => .error "KeyError: post"

/-- Embedding of `PostList.load_ids_from_file` (lines 140-151): a
missing file (`none`) gives the empty id list, otherwise the line loop
runs over the file's lines. -/
def load_ids_from_file : Option (List StorageLine) → Except String (List Nat)
  | none => .ok []
  | some lines => load_ids_lines [] lines

/-- The post identifiers recorded in a community storage file. -/
def file_post_ids : Option (List StorageLine) → List Nat
  | none => []
  | some lines =>
    lines.filterMap fun l =>
      match l with
      | .parsed i => some i
      | _ => none

/-! ### Sync engine: `PostList`, `sync_community`, `sync_communities`
(lines 89-219)

The fields of a remote post payload the engine reads are
`post['post']['id']`, the publication instant, and
`data['counts']['comments']`.  `get_date` (lines 15-16) truncates the
ISO timestamp at `'T'` and parses the date part only, so publication
instants reach the age comparison at whole-day granularity; we carry
them as day numbers.  Attaching comments to an accepted post (the
`Post` constructor's `load_comments`) touches neither the `posts` nor
the `ids` list of a `PostList`, so comment payloads are elided from the
accepted-post state. -/

/-- A remote post payload, restricted to the fields the sync engine
reads. -/
structure RawPost where
  id : Nat
  published_day : Int
  num_comments : Nat
deriving DecidableEq

/-- Python's `datetime.timedelta` exposes `days`, `seconds` and
`microseconds`; subtraction of day-granular datetimes leaves only
`days` here. -/
structure Timedelta where
  days : Int
deriving DecidableEq

/-- `now - date` on line 206, at the granularity `get_date` leaves. -/
def datetime_sub (now_day date_day : Int) : Timedelta :=
  ⟨now_day - date_day⟩

/-- The attribute access `diff.hours` on line 207: `timedelta` has no
attribute `hours`, so evaluating it raises `AttributeError` whatever
the timedelta holds. -/
def timedelta_hours (_ : Timedelta) : Except String Int :=
  .error "AttributeError: timedelta object has no attribute hours"

/-- The state of a `PostList` (lines 114-126) that the identifier
logic touches: the accepted posts and the parallel `ids` list
(`__init__` sets `ids = [post.id for post in posts]`; `sync_community`
starts from `PostList(api, [], community)`, i.e. both empty). -/
structure PostListState where
  posts : List RawPost
  ids : List Nat
deriving DecidableEq

/-- Embedding of `PostList.add_to_posts` (lines 121-126): append each
incoming payload whose id is not yet in `ids`, recording its id. -/
def add_to_posts (pl : PostListState) (new_posts : List RawPost) : PostListState :=
  new_posts.foldl
    (fun pl post =>
      if post.id ∈ pl.ids then pl
      else ⟨pl.posts ++ [post], pl.ids ++ [post.id]⟩)
    pl

/-- Embedding of `PostList.save_to_file` (lines 165-191): with no
accepted posts it returns at once, writing nothing; otherwise its first
statement after that guard, `(_, idx) = get_posts_for_day(0)`
(line 170), reads `get_posts_for_day` as a bare global name — the
function only exists as a method of `PostList` — so Python raises
`NameError` before any file handle is opened, and the storage file is
left untouched. -/
def save_to_file (pl : PostListState) (file : Option (List StorageLine)) :
    Except String (Option (List StorageLine)) :=
  if pl.posts = [] then .ok file
  else .error "NameError: name get_posts_for_day is not defined"

/-- The body of `sync_community`'s per-post loop (lines 202-209): a
post whose id is in `saved_ids` is skipped; otherwise `diff =
now - get_date(...)` is computed and `diff.hours` is read (line 207),
which raises `AttributeError`; were a value obtained, a post younger
than `min_post_age` would be skipped and an old-enough post added via
`add_to_posts`. -/
def sync_process_post (saved_ids : List Nat) (now_day min_post_age : Int)
    (pl : PostListState) (post : RawPost) : Except String PostListState :=
  if post.id ∈ saved_ids then .ok pl
  else
    match timedelta_hours (datetime_sub now_day post.published_day) with
    | .error e => .error e
    | .ok h => if h < min_post_age then .ok pl else .ok (add_to_posts pl [post])

/-- Embedding of `sync_community` (lines 193-211): load the seen ids
(a load failure propagates), scan pages `1 .. max_page` passing each
returned post through the per-post loop body, then `save_to_file` the
accepted posts.  The community's storage file is `none` when missing
and `some lines` otherwise; the result is the file contents after the
call. -/
def sync_community (server : Nat → List RawPost) (file : Option (List StorageLine))
    (max_page : Nat) (now_day min_post_age : Int) :
    Except String (Option (List StorageLine)) :=
  match load_ids_from_file file with
  | .error e => .error e
  | .ok saved_ids =>
    match (List.range' 1 max_page).foldlM
        (fun pl page =>
          (server page).foldlM (sync_process_post saved_ids now_day min_post_age) pl)
        (⟨[], []⟩ : PostListState) with
    | .error e => .error e
    | .ok new_posts => save_to_file new_posts file

/-- One per-community attempt of the outer loop (lines 213-219) as it
affects that community's storage file: the bare `except:` catches
whatever `sync_community` raised, and since every write of the file
happens inside `save_to_file`, a failed cycle leaves the file exactly
as it was. -/
def run_cycle (server : Nat → List RawPost) (max_page : Nat)
    (now_day min_post_age : Int) (file : Option (List StorageLine)) :
    Option (List StorageLine) :=
  match sync_community server file max_page now_day min_post_age with
  | .ok file2 => file2
  | .error _ => file

/-- The inputs of one sync cycle over a community: the remote listing
as of that cycle and the configuration and clock it ran with. -/
structure CycleInput where
  server : Nat → List RawPost
  max_page : Nat
  now_day : Int
  min_post_age : Int

/-- A community's storage file after a sequence of sync cycles. -/
def run_cycles (cycles : List CycleInput) (file : Option (List StorageLine)) :
    Option (List StorageLine) :=
  cycles.foldl
    (fun f c => run_cycle c.server c.max_page c.now_day c.min_post_age f)
    file

/-- End-to-end scenario server: page 1 returns posts A (id 1,
5 comments) and B (id 2, no comments), later pages are empty. -/
def scenario_e2e_server (p : Nat) : List RawPost :=
  if p = 1 then [⟨1, 0, 5⟩, ⟨2, 0, 0⟩] else []

/-- Age-gating scenario server: page 1 returns one unseen post
(id 10) published on day 5, later pages are empty. -/
def young_post_server (p : Nat) : List RawPost :=
  if p = 1 then [⟨10, 5, 0⟩] else []

/-- The outcome of one community's attempt in `sync_communities`
(lines 213-219): either the sync returned, or the bare `except:`
caught an error, printed the traceback and slept `10` seconds before
the loop moved on. -/
inductive SyncEvent
  | synced (community : String)
  | failed (community : String) (err : String) (backoff : Nat)
deriving DecidableEq

/-- The community an event belongs to. -/
def SyncEvent.community : SyncEvent → String
  | .synced c => c
  | .failed c _ _ => c

/-- Embedding of `sync_communities` (lines 213-219): every configured
community is attempted in order with the outcome of its
`sync_community` call; errors are caught per community. -/
def sync_communities (syncOne : String → Except String Unit) :
    List String → List SyncEvent
  | [] => []
  | c :: rest =>
    (match syncOne c with
      | .ok _ => .synced c
      | .error e => .failed c e 10) :: sync_communities syncOne rest

/-- A per-community sync outcome for the isolation scenario: the first
community fails, every other one succeeds. -/
def failing_first_sync (c : String) : Except String Unit :=
  if c = "a" then .error "boom" else .ok ()

/-! ### Startup `base_url` fixup (lines 240-242)

`base_url = ensure_prop('base_url', config)` is followed by
`if 'api' not in base_url: base_url += '/api/v3'`.  Python's `in` on
strings is substring containment, modelled character-exactly below. -/

/-- `needle` is an initial segment of `l`, character by character. -/
def starts_with : List Char → List Char → Bool
  | [], _ => true
  | _ :: _, [] => false
  | a :: as, b :: bs => a == b && starts_with as bs

/-- Python `needle in hay` for strings: some tail of `hay` starts with
`needle`. -/
def py_in (needle : List Char) : List Char → Bool
  | [] => starts_with needle []
  | c :: t => starts_with needle (c :: t) || py_in needle t

/-- `hay` ends with `needle`. -/
def ends_with (needle hay : List Char) : Bool :=
  starts_with needle.reverse hay.reverse

/-- Embedding of the `base_url` fixup (lines 241-242): append
`/api/v3` exactly when the substring `api` occurs nowhere in the
configured value. -/
def fix_base_url (s : List Char) : List Char :=
  if py_in ("api".toList) s then s else s ++ ("/api/v3".toList)

/-! ## Theorems -/

/-! ### Comment collector lemmas -/

theorem get_comments_continue (server : Nat → List α) (expected_num page : Nat)
    (acc : List α) (h : (acc ++ server page).length < expected_num ∧ 0 < (server page).length) :
    get_comments server expected_num page acc =
      get_comments server expected_num (page + 1) (acc ++ server page) := by
  conv_lhs => unfold get_comments
  simp only [dif_pos h]

theorem get_comments_halt (server : Nat → List α) (expected_num page : Nat)
    (acc : List α)
    (h : ¬((acc ++ server page).length < expected_num ∧ 0 < (server page).length)) :
    get_comments server expected_num page acc = acc ++ server page := by
  unfold get_comments
  simp only [dif_neg h]

theorem get_comments_calls_continue (server : Nat → List α) (expected_num page : Nat)
    (acc : List α) (h : (acc ++ server page).length < expected_num ∧ 0 < (server page).length) :
    get_comments_calls server expected_num page acc =
      1 + get_comments_calls server expected_num (page + 1) (acc ++ server page) := by
  conv_lhs => unfold get_comments_calls
  simp only [dif_pos h]

theorem get_comments_calls_halt (server : Nat → List α) (expected_num page : Nat)
    (acc : List α)
    (h : ¬((acc ++ server page).length < expected_num ∧ 0 < (server page).length)) :
    get_comments_calls server expected_num page acc = 1 := by
  unfold get_comments_calls
  simp only [dif_neg h]

theorem get_comments_extends_fuel (server : Nat → List α) (expected_num : Nat) :
    ∀ n page acc, expected_num - acc.length ≤ n →
      ∃ t, get_comments server expected_num page acc = acc ++ t := by
  intro n
  induction n with
  | zero =>
    intro page acc hle
    have hnot : ¬((acc ++ server page).length < expected_num ∧ 0 < (server page).length) := by
      rw [List.length_append]
      intro hc
      have := hc.1
      omega
    exact ⟨server page, get_comments_halt server expected_num page acc hnot⟩
  | succ n ih =>
    intro page acc hle
    by_cases h : (acc ++ server page).length < expected_num ∧ 0 < (server page).length
    · rw [get_comments_continue server expected_num page acc h]
      have hlen : (acc ++ server page).length = acc.length + (server page).length :=
        List.length_append ..
      have h1 := h.1
      have h2 := h.2
      obtain ⟨t, ht⟩ := ih (page + 1) (acc ++ server page) (by omega)
      exact ⟨server page ++ t, by rw [ht, List.append_assoc]⟩
    · exact ⟨server page, get_comments_halt server expected_num page acc h⟩

/-- `get_comments` only ever appends to the accumulator it is given. -/
theorem get_comments_extends (server : Nat → List α) (expected_num page : Nat)
    (acc : List α) : ∃ t, get_comments server expected_num page acc = acc ++ t :=
  get_comments_extends_fuel server expected_num (expected_num - acc.length) page acc le_rfl

/-- Claim C3: the comment collector appends each page to the
accumulator and requests a further page exactly when the accumulated
size is still below `expected_num` and the last page was non-empty;
with `expected_num = 137` and pages of 50, 50 and 37 comments it
returns 137 comments after exactly 3 requests, and with an empty
page 2 it stops after 2 requests short of `expected_num`. -/
theorem claim_C3_comment_pagination :
    (∀ (server : Nat → List Nat) (expected_num page : Nat) (acc : List Nat),
      ∃ t, get_comments server expected_num page acc = acc ++ t) ∧
    (∀ (server : Nat → List Nat) (expected_num page : Nat) (acc : List Nat),
      get_comments_calls server expected_num page acc = 1 ↔
        ¬((acc ++ server page).length < expected_num ∧ 0 < (server page).length)) ∧
    (get_comments scenario_server_full 137 1 []).length = 137 ∧
    get_comments_calls scenario_server_full 137 1 [] = 3 ∧
    get_comments scenario_server_gap 137 1 [] = List.replicate 50 0 ∧
    get_comments_calls scenario_server_gap 137 1 [] = 2 := by
  refine ⟨fun s e p a => get_comments_extends s e p a, fun s e p a => ?_, ?_, ?_, ?_, ?_⟩
  · constructor
    · intro h1 hc
      rw [get_comments_calls_continue s e p a hc] at h1
      have hone : 1 ≤ get_comments_calls s e (p + 1) (a ++ s p) := by
        by_cases h2 : ((a ++ s p) ++ s (p + 1)).length < e ∧ 0 < (s (p + 1)).length
        · rw [get_comments_calls_continue s e (p + 1) (a ++ s p) h2]
          omega
        · rw [get_comments_calls_halt s e (p + 1) (a ++ s p) h2]
      omega
    · intro hnc
      exact get_comments_calls_halt s e p a hnc
  · rw [get_comments_continue _ _ _ _ (by norm_num [scenario_server_full]),
      get_comments_continue _ _ _ _ (by norm_num [scenario_server_full]),
      get_comments_halt _ _ _ _ (by norm_num [scenario_server_full])]
    norm_num [scenario_server_full]
  · rw [get_comments_calls_continue _ _ _ _ (by norm_num [scenario_server_full]),
      get_comments_calls_continue _ _ _ _ (by norm_num [scenario_server_full]),
      get_comments_calls_halt _ _ _ _ (by norm_num [scenario_server_full])]
  · rw [get_comments_continue _ _ _ _ (by norm_num [scenario_server_gap]),
      get_comments_halt _ _ _ _ (by norm_num [scenario_server_gap])]
    norm_num [scenario_server_gap]
  · rw [get_comments_calls_continue _ _ _ _ (by norm_num [scenario_server_gap]),
      get_comments_calls_halt _ _ _ _ (by norm_num [scenario_server_gap])]

/-- Claim C9: calls omitting `acc` start from (and extend) whatever the
previous such calls accumulated in the shared default-argument object;
two identical calls against identical server responses return `[0]` and
then `[0, 0]`, so equal inputs do not guarantee equal results. -/
theorem claim_C9_shared_default_accumulator :
    (∀ (calls : List ((Nat → List Nat) × Nat)) (s : Nat → List Nat) (e : Nat),
      ∃ t, get_comments s e 1 (default_acc_after calls) = default_acc_after calls ++ t) ∧
    default_acc_after [] = [] ∧
    get_comments one_comment_server 1 1 (default_acc_after []) = [0] ∧
    default_acc_after [(one_comment_server, 1)] = [0] ∧
    get_comments one_comment_server 1 1 (default_acc_after [(one_comment_server, 1)]) = [0, 0] ∧
    get_comments one_comment_server 1 1 (default_acc_after [(one_comment_server, 1)]) ≠
      get_comments one_comment_server 1 1 (default_acc_after []) := by
  have hfirst : get_comments one_comment_server 1 1 ([] : List Nat) = [0] := by
    rw [get_comments_halt _ _ _ _ (by norm_num [one_comment_server])]
    norm_num [one_comment_server]
  have hd0 : default_acc_after [] = [] := rfl
  have hd1 : default_acc_after [(one_comment_server, 1)] = [0] := by
    simp only [default_acc_after, List.foldl]
    exact hfirst
  have hsecond : get_comments one_comment_server 1 1 [0] = [0, 0] := by
    rw [get_comments_halt _ _ _ _ (by norm_num [one_comment_server])]
    norm_num [one_comment_server]
  refine ⟨fun calls s e => get_comments_extends s e 1 (default_acc_after calls),
    hd0, by rw [hd0]; exact hfirst, hd1, by rw [hd1]; exact hsecond, ?_⟩
  rw [hd0, hd1, hfirst, hsecond]
  simp

/-! ### Rate limiter theorems -/

/-- Claim C6 counterexample: with `request_interval = 20`, a client
constructed at instant 0 issues its first call entered at 0 (sleeping
20, issue at 20) whose GET takes 5 seconds, returning at 25.  A second
call entered at 41 comes only 16 seconds after the previous call
returned — less than the interval — yet the client sleeps 0 and issues
immediately at 41, because `last_request` was recorded before the GET
was issued, not when it returned. -/
theorem claim_C6_counterexample :
    (get_api_step 20 (lemmy_api_init 0) 0 5).1.ret = 25 ∧
    (get_api_step 20 (lemmy_api_init 0) 0 5).2.last_request = 20 ∧
    (41 : ℚ) - (get_api_step 20 (lemmy_api_init 0) 0 5).1.ret < 20 ∧
    rate_limit_sleep 20 (get_api_step 20 (lemmy_api_init 0) 0 5).2 41 = 0 ∧
    (get_api_step 20 (get_api_step 20 (lemmy_api_init 0) 0 5).2 41 3).1.issue = 41 := by
  norm_num [get_api_step, rate_limit_sleep, lemmy_api_init]

/-- Claim C6 (amended): the wait before a remote call is measured from
the instant the previous call was issued (the timestamp is recorded
after the rate-limit sleep, immediately before the GET), not from when
it returned: entered within `request_interval` of the previous issue
instant the client sleeps exactly the remainder, otherwise not at all,
and consecutive issue instants are always at least `request_interval`
apart.  One client-level interval governs every call type. -/
theorem rate_limit_from_last (request_interval : ℚ) (st : ApiState) (now2 dur2 : ℚ) :
    (now2 - st.last_request < request_interval →
      rate_limit_sleep request_interval st now2 =
        request_interval - (now2 - st.last_request)) ∧
    (request_interval ≤ now2 - st.last_request →
      rate_limit_sleep request_interval st now2 = 0) ∧
    request_interval ≤
      (get_api_step request_interval st now2 dur2).1.issue - st.last_request := by
  refine ⟨fun hlt => if_pos hlt, fun hge => if_neg (not_lt.mpr hge), ?_⟩
  have hissue : (get_api_step request_interval st now2 dur2).1.issue =
      now2 + rate_limit_sleep request_interval st now2 := rfl
  rw [hissue]
  unfold rate_limit_sleep
  by_cases hlt : now2 - st.last_request < request_interval
  · rw [if_pos hlt]
    linarith
  · rw [if_neg hlt]
    linarith [not_lt.mp hlt]

theorem claim_C6_amended_sleep_from_issue (request_interval : ℚ) (st : ApiState)
    (now dur now2 dur2 : ℚ) :
    (now2 - (get_api_step request_interval st now dur).1.issue < request_interval →
      rate_limit_sleep request_interval (get_api_step request_interval st now dur).2 now2 =
        request_interval - (now2 - (get_api_step request_interval st now dur).1.issue)) ∧
    (request_interval ≤ now2 - (get_api_step request_interval st now dur).1.issue →
      rate_limit_sleep request_interval (get_api_step request_interval st now dur).2 now2 = 0) ∧
    request_interval ≤
      (get_api_step request_interval (get_api_step request_interval st now dur).2 now2 dur2).1.issue
        - (get_api_step request_interval st now dur).1.issue := by
  have hst : (get_api_step request_interval st now dur).2.last_request =
      (get_api_step request_interval st now dur).1.issue := rfl
  have hmain := rate_limit_from_last request_interval
    (get_api_step request_interval st now dur).2 now2 dur2
  rw [hst] at hmain
  exact hmain

/-- Witness for the amended claim C6: interval 20, previous call issued
at 30; a second call entered at 46 (16 seconds later) sleeps exactly 4,
and the two issue instants are at least 20 apart. -/
theorem claim_C6_amended_witness :
    rate_limit_sleep 20 (get_api_step 20 (lemmy_api_init 0) 30 5).2 46 =
      20 - ((46 : ℚ) - (get_api_step 20 (lemmy_api_init 0) 30 5).1.issue) ∧
    (20 : ℚ) ≤
      (get_api_step 20 (get_api_step 20 (lemmy_api_init 0) 30 5).2 46 7).1.issue
        - (get_api_step 20 (lemmy_api_init 0) 30 5).1.issue :=
  ⟨(claim_C6_amended_sleep_from_issue 20 (lemmy_api_init 0) 30 5 46 7).1
      (by norm_num [get_api_step, rate_limit_sleep, lemmy_api_init]),
   (claim_C6_amended_sleep_from_issue 20 (lemmy_api_init 0) 30 5 46 7).2.2⟩

/-- Claim C10: `last_request` is initialized to the construction
instant, so the first call after construction is never issued before
`ctor_time + request_interval`; entered earlier than that, it sleeps a
positive amount and is issued exactly at `ctor_time +
request_interval`. -/
theorem claim_C10_first_call_waits (request_interval ctor_time now dur : ℚ)
    (hc : ctor_time ≤ now) (hi : 0 ≤ request_interval) :
    ctor_time + request_interval ≤
      (get_api_step request_interval (lemmy_api_init ctor_time) now dur).1.issue ∧
    (now < ctor_time + request_interval →
      (get_api_step request_interval (lemmy_api_init ctor_time) now dur).1.issue =
          ctor_time + request_interval ∧
        0 < rate_limit_sleep request_interval (lemmy_api_init ctor_time) now) := by
  simp only [get_api_step, rate_limit_sleep, lemmy_api_init]
  constructor
  · by_cases hlt : now - ctor_time < request_interval
    · rw [if_pos hlt]
      linarith
    · rw [if_neg hlt]
      linarith [not_lt.mp hlt]
  · intro hearly
    rw [if_pos (by linarith)]
    constructor
    · ring
    · linarith

/-- Witness for claim C10: interval 20, construction at 0, first call
entered at 5 is issued no earlier than instant 20, indeed exactly at
20 after a positive sleep. -/
theorem claim_C10_witness :
    (0 : ℚ) + 20 ≤ (get_api_step 20 (lemmy_api_init 0) 5 1).1.issue ∧
    (get_api_step 20 (lemmy_api_init 0) 5 1).1.issue = (0 : ℚ) + 20 ∧
    0 < rate_limit_sleep 20 (lemmy_api_init 0) 5 :=
  ⟨(claim_C10_first_call_waits 20 0 5 1 (by norm_num) (by norm_num)).1,
   (claim_C10_first_call_waits 20 0 5 1 (by norm_num) (by norm_num)).2 (by norm_num)⟩

/-! ### Seen-ID index theorems -/

theorem load_ids_lines_malformed (lines : List StorageLine)
    (hmem : StorageLine.bad_json ∈ lines ∨ StorageLine.missing_field ∈ lines) :
    ∀ acc ids, load_ids_lines acc lines ≠ .ok ids := by
  induction lines with
  | nil => simp at hmem
  | cons hd tl ih =>
    intro acc ids
    cases hd with
    | parsed i =>
      have htl : StorageLine.bad_json ∈ tl ∨ StorageLine.missing_field ∈ tl := by
        rcases hmem with h | h
        · rcases List.mem_cons.mp h with h | h
          · exact absurd h (by simp)
          · exact Or.inl h
        · rcases List.mem_cons.mp h with h | h
          · exact absurd h (by simp)
          · exact Or.inr h
      exact ih htl (acc ++ [i]) ids
    | bad_json => exact fun hcontra => Except.noConfusion hcontra
    | missing_field => exact fun hcontra => Except.noConfusion hcontra

/-- Claim C5: loading the Seen-ID index from a missing storage file
yields the empty id set, and loading any existing file containing a
line that is invalid JSON or lacks the post-id field never returns an
id list — the load fails with an error. -/
theorem claim_C5_seen_id_load :
    load_ids_from_file none = .ok [] ∧
    ∀ lines : List StorageLine,
      (StorageLine.bad_json ∈ lines ∨ StorageLine.missing_field ∈ lines) →
      ∀ ids : List Nat, load_ids_from_file (some lines) ≠ .ok ids := by
  refine ⟨rfl, fun lines hmem ids => ?_⟩
  exact load_ids_lines_malformed lines hmem [] ids

/-- Witness for claim C5: a file whose second line is invalid JSON
makes the load fail; it does not return the partial set `[1]`, nor the
empty set. -/
theorem claim_C5_witness :
    load_ids_from_file (some [StorageLine.parsed 1, StorageLine.bad_json]) ≠ .ok [1] ∧
    load_ids_from_file (some [StorageLine.parsed 1, StorageLine.bad_json]) ≠ .ok [] :=
  ⟨claim_C5_seen_id_load.2 _ (Or.inl (by simp)) [1],
   claim_C5_seen_id_load.2 _ (Or.inl (by simp)) []⟩

/-! ### Sync engine theorems -/

theorem add_to_posts_cons (pl : PostListState) (p : RawPost) (rest : List RawPost) :
    add_to_posts pl (p :: rest) =
      add_to_posts
        (if p.id ∈ pl.ids then pl else ⟨pl.posts ++ [p], pl.ids ++ [p.id]⟩) rest := rfl

theorem add_to_posts_nodup (new_posts : List RawPost) :
    ∀ pl : PostListState, pl.ids.Nodup → (add_to_posts pl new_posts).ids.Nodup := by
  induction new_posts with
  | nil => exact fun pl h => h
  | cons p rest ih =>
    intro pl h
    rw [add_to_posts_cons]
    by_cases hmem : p.id ∈ pl.ids
    · rw [if_pos hmem]
      exact ih pl h
    · rw [if_neg hmem]
      refine ih _ ?_
      simp only
      rw [List.nodup_append]
      exact ⟨h, List.nodup_singleton _, by simpa using hmem⟩

theorem add_to_posts_mem_count (new_posts : List RawPost) :
    ∀ (pl : PostListState) (i : Nat), i ∈ pl.ids →
      (add_to_posts pl new_posts).ids.count i = pl.ids.count i := by
  induction new_posts with
  | nil => intro pl i _; rfl
  | cons p rest ih =>
    intro pl i hi
    rw [add_to_posts_cons]
    by_cases hmem : p.id ∈ pl.ids
    · rw [if_pos hmem]
      exact ih pl i hi
    · rw [if_neg hmem]
      have hne : i ≠ p.id := fun he => hmem (he ▸ hi)
      have hstep := ih ⟨pl.posts ++ [p], pl.ids ++ [p.id]⟩ i (by simp [hi])
      rw [hstep]
      simp only
      rw [List.count_append]
      simp [List.count_cons, hne]

theorem save_to_file_ok (pl : PostListState) (file file2 : Option (List StorageLine))
    (h : save_to_file pl file = .ok file2) : file2 = file := by
  unfold save_to_file at h
  by_cases hp : pl.posts = []
  · rw [if_pos hp] at h
    exact (Except.ok.injEq _ _ ▸ h).symm ▸ rfl
  · rw [if_neg hp] at h
    exact absurd h (fun hc => Except.noConfusion hc)

theorem sync_community_ok (server : Nat → List RawPost) (file : Option (List StorageLine))
    (max_page : Nat) (now_day min_post_age : Int) (file2 : Option (List StorageLine))
    (h : sync_community server file max_page now_day min_post_age = .ok file2) :
    file2 = file := by
  unfold sync_community at h
  split at h
  · exact Except.noConfusion h
  · split at h
    · exact Except.noConfusion h
    · exact save_to_file_ok _ file file2 h

theorem run_cycle_id (server : Nat → List RawPost) (max_page : Nat)
    (now_day min_post_age : Int) (file : Option (List StorageLine)) :
    run_cycle server max_page now_day min_post_age file = file := by
  unfold run_cycle
  cases hs : sync_community server file max_page now_day min_post_age with
  | error e => rfl
  | ok file2 => exact sync_community_ok server file max_page now_day min_post_age file2 hs

theorem run_cycles_id (cycles : List CycleInput) :
    ∀ file, run_cycles cycles file = file := by
  induction cycles with
  | nil => intro file; rfl
  | cons c rest ih =>
    intro file
    unfold run_cycles
    rw [List.foldl_cons, run_cycle_id]
    exact ih file

/-- Claim C1: across any sequence of sync cycles a community storage
file with distinct post ids keeps its post ids distinct; a post whose
id is already in the accept-list is not re-added by `add_to_posts`
(neither disturbing distinctness nor increasing its multiplicity); and
the per-post loop body only ever lets ids through that were either
already accepted or absent from the Seen-ID index loaded at the start
of the cycle. -/
theorem claim_C1_no_duplicate_ids :
    (∀ (cycles : List CycleInput) (file : Option (List StorageLine)),
      (file_post_ids file).Nodup → (file_post_ids (run_cycles cycles file)).Nodup) ∧
    (∀ (pl : PostListState) (new_posts : List RawPost),
      pl.ids.Nodup → (add_to_posts pl new_posts).ids.Nodup) ∧
    (∀ (pl : PostListState) (new_posts : List RawPost) (i : Nat), i ∈ pl.ids →
      (add_to_posts pl new_posts).ids.count i = pl.ids.count i) ∧
    (∀ (saved_ids : List Nat) (now_day min_post_age : Int) (pl pl2 : PostListState)
      (post : RawPost),
      sync_process_post saved_ids now_day min_post_age pl post = .ok pl2 →
      ∀ i ∈ pl2.ids, i ∈ pl.ids ∨ i ∉ saved_ids) := by
  refine ⟨fun cycles file h => ?_, fun pl new_posts h => add_to_posts_nodup new_posts pl h,
    fun pl new_posts i hi => add_to_posts_mem_count new_posts pl i hi,
    fun saved_ids now_day min_post_age pl pl2 post h i hi => ?_⟩
  · rw [run_cycles_id]
    exact h
  · unfold sync_process_post at h
    by_cases hmem : post.id ∈ saved_ids
    · rw [if_pos hmem] at h
      have : pl = pl2 := by
        injection h
      exact Or.inl (this ▸ hi)
    · rw [if_neg hmem] at h
      exact absurd h (fun hc => Except.noConfusion hc)

/-- Witness for claim C1: a storage file with ids 1 and 2 stays
duplicate-free after a cycle sequence; `add_to_posts` on an accept-list
already holding id 5 neither breaks distinctness nor bumps the count of
id 5; and the loop body passing through a seen post keeps only
already-present ids. -/
theorem claim_C1_witness :
    (file_post_ids (run_cycles [] (some [StorageLine.parsed 1, StorageLine.parsed 2]))).Nodup ∧
    (add_to_posts ⟨[], [5]⟩ [⟨5, 0, 0⟩, ⟨6, 0, 0⟩]).ids.Nodup ∧
    (add_to_posts ⟨[], [5]⟩ [⟨5, 0, 0⟩]).ids.count 5 = ([5] : List Nat).count 5 ∧
    (3 ∈ ([3] : List Nat) ∨ 3 ∉ ([7] : List Nat)) :=
  ⟨claim_C1_no_duplicate_ids.1 [] (some [StorageLine.parsed 1, StorageLine.parsed 2])
      (by decide),
   claim_C1_no_duplicate_ids.2.1 ⟨[], [5]⟩ [⟨5, 0, 0⟩, ⟨6, 0, 0⟩] (by decide),
   claim_C1_no_duplicate_ids.2.2.1 ⟨[], [5]⟩ [⟨5, 0, 0⟩] 5 (by decide),
   claim_C1_no_duplicate_ids.2.2.2 [7] 0 24 ⟨[], [3]⟩ ⟨[], [3]⟩ ⟨7, 0, 0⟩ rfl 3
      (by decide)⟩

/-- Claim C2 divergence: in the end-to-end scenario (`max_page = 1`,
`min_post_age = 0`, empty storage file, remote page 1 holding posts
id 1 and id 2) the cycle does not append the accept-list — it raises
`AttributeError` at the age test `diff.hours` before any post is
accepted, the storage file is left empty, and the next cycle's Seen-ID
load returns the empty set rather than the ids 1 and 2; independently,
`save_to_file` on any non-empty accept-list raises `NameError` before
writing. -/
theorem claim_C2_append_fails :
    sync_community scenario_e2e_server (some []) 1 0 0 =
      .error "AttributeError: timedelta object has no attribute hours" ∧
    run_cycle scenario_e2e_server 1 0 0 (some []) = some [] ∧
    load_ids_from_file (run_cycle scenario_e2e_server 1 0 0 (some [])) = .ok [] ∧
    save_to_file ⟨[⟨1, 0, 5⟩], [1]⟩ (some []) =
      .error "NameError: name get_posts_for_day is not defined" := by
  refine ⟨?_, ?_, ?_, ?_⟩ <;> rfl

/-- Claim C4 divergence: a cycle meeting one unseen post (id 10,
published on day 5, seen index holding only id 3, `min_post_age = 24`)
raises `AttributeError` at the age test `diff.hours` instead of
skipping the young post and continuing; the community's cycle aborts
with the storage file unchanged, and the per-post loop body alone
already returns the error. -/
theorem claim_C4_age_gate_crashes :
    sync_process_post [3] 5 24 ⟨[], []⟩ ⟨10, 5, 0⟩ =
      .error "AttributeError: timedelta object has no attribute hours" ∧
    sync_community young_post_server (some [StorageLine.parsed 3]) 2 5 24 =
      .error "AttributeError: timedelta object has no attribute hours" ∧
    run_cycle young_post_server 2 5 24 (some [StorageLine.parsed 3]) =
      some [StorageLine.parsed 3] := by
  refine ⟨?_, ?_, ?_⟩ <;> rfl

/-- Claim C7: every configured community is attempted in order whatever
the outcomes of the individual syncs — an error in one community's
sync is caught and recorded with the fixed 10-second backoff, and the
remaining communities are still attempted. -/
theorem claim_C7_per_community_isolation :
    (∀ (syncOne : String → Except String Unit) (communities : List String),
      (sync_communities syncOne communities).map SyncEvent.community = communities) ∧
    (∀ (syncOne : String → Except String Unit) (communities : List String)
      (c : String) (e : String), c ∈ communities → syncOne c = .error e →
      SyncEvent.failed c e 10 ∈ sync_communities syncOne communities) := by
  constructor
  · intro syncOne communities
    induction communities with
    | nil => rfl
    | cons c rest ih =>
      unfold sync_communities
      rw [List.map_cons, ih]
      cases syncOne c <;> rfl
  · intro syncOne communities c e hm he
    induction communities with
    | nil => simp at hm
    | cons c0 rest ih =>
      unfold sync_communities
      rcases List.mem_cons.mp hm with h | h
      · subst h
        rw [he]
        exact List.mem_cons_self _ _
      · exact List.mem_cons_of_mem _ (ih h)

/-- Witness for claim C7: with the first of two communities failing,
both communities are still attempted in order and the failure of the
first is recorded with backoff 10. -/
theorem claim_C7_witness :
    (sync_communities failing_first_sync ["a", "b"]).map SyncEvent.community = ["a", "b"] ∧
    SyncEvent.failed "a" "boom" 10 ∈ sync_communities failing_first_sync ["a", "b"] :=
  ⟨claim_C7_per_community_isolation.1 failing_first_sync ["a", "b"],
   claim_C7_per_community_isolation.2 failing_first_sync ["a", "b"] "a" "boom"
      (by simp) (by rfl)⟩

/-! ### base_url theorems -/

theorem starts_with_iff (a : List Char) :
    ∀ b, starts_with a b = true ↔ ∃ t, b = a ++ t := by
  induction a with
  | nil =>
    intro b
    simp [starts_with]
  | cons x xs ih =>
    intro b
    cases b with
    | nil =>
      simp only [starts_with]
      constructor
      · intro hc
        exact absurd hc (by simp)
      · rintro ⟨t, ht⟩
        exact absurd ht (by simp)
    | cons y ys =>
      simp only [starts_with, Bool.and_eq_true, beq_iff_eq]
      rw [ih ys]
      constructor
      · rintro ⟨rfl, t, rfl⟩
        exact ⟨t, rfl⟩
      · rintro ⟨t, ht⟩
        rw [List.cons_append] at ht
        injection ht with h1 h2
        exact ⟨h1.symm, t, h2⟩

theorem py_in_mono (needle : List Char) (c : Char) (t : List Char)
    (h : py_in needle t = true) : py_in needle (c :: t) = true := by
  unfold py_in
  rw [h]
  simp

theorem py_in_append (needle : List Char) (pre : List Char) :
    ∀ l, py_in needle l = true → py_in needle (pre ++ l) = true := by
  induction pre with
  | nil => intro l h; exact h
  | cons c cs ih =>
    intro l h
    rw [List.cons_append]
    exact py_in_mono needle c (cs ++ l) (ih l h)

theorem ends_with_exists (needle hay : List Char) (h : ends_with needle hay = true) :
    ∃ pre, hay = pre ++ needle := by
  unfold ends_with at h
  obtain ⟨t, ht⟩ := (starts_with_iff needle.reverse hay.reverse).mp h
  refine ⟨t.reverse, ?_⟩
  have := congrArg List.reverse ht
  rw [List.reverse_reverse, List.reverse_append, List.reverse_reverse] at this
  exact this

/-- Claim C8 counterexample: the configured value
`https://api.example.com` does not end with `/api/v3`, yet startup
leaves it unchanged — no suffix is appended — because the code tests
`'api' not in base_url` and the host name contains `api`. -/
theorem claim_C8_counterexample :
    ends_with ("/api/v3".toList) ("https://api.example.com".toList) = false ∧
    fix_base_url ("https://api.example.com".toList) = "https://api.example.com".toList := by
  refine ⟨by decide, ?_⟩
  unfold fix_base_url
  rw [if_pos (by decide)]

/-- Claim C8 (amended): startup appends `/api/v3` to `base_url` exactly
when the substring `api` occurs nowhere in it; in particular a value
already ending with `/api/v3` is left unchanged, but so is any value
containing `api` elsewhere even without the suffix. -/
theorem claim_C8_amended_substring_test (s : List Char) :
    (ends_with ("/api/v3".toList) s = true → fix_base_url s = s) ∧
    (py_in ("api".toList) s = false → fix_base_url s = s ++ ("/api/v3".toList)) := by
  constructor
  · intro hend
    obtain ⟨pre, rfl⟩ := ends_with_exists _ s hend
    unfold fix_base_url
    rw [if_pos (py_in_append _ pre _ (by decide))]
  · intro hnotin
    unfold fix_base_url
    rw [if_neg (by rw [hnotin]; simp)]

/-- Witness for the amended claim C8: a value ending with `/api/v3` is
left unchanged, and a value not containing `api` gets the suffix
appended. -/
theorem claim_C8_witness :
    fix_base_url ("https://lemmy.ml/api/v3".toList) = "https://lemmy.ml/api/v3".toList ∧
    fix_base_url ("https://lemmy.ml".toList) =
      "https://lemmy.ml".toList ++ ("/api/v3".toList) :=
  ⟨(claim_C8_amended_substring_test _).1 (by decide),
   (claim_C8_amended_substring_test _).2 (by decide)⟩

end LemmySync
